import Mathlib

/-!
Verification of the jjkk interaction state machine and native mutation engine.

The definitions below are a shallow embedding of `src/app.rs` (the interaction
state machine: tabs, popups, selection indices, feedback state and the key-event
dispatcher) and of `src/jj/native_operations.rs` (the transactional mutation
engine: describe / commit / fetch / track).  External collaborators (the jj-lib
repository primitives, the subprocess-backed read-only queries and the
tui-textarea widget) are modelled through an explicit environment record or a
small executable repository model, following the external-interface description
of the specification.
-/

namespace Jjkk

/-! ## Basic data types (src/jj/repo.rs, operations.rs, log.rs, app.rs) -/

/-- `ChangeType` from src/jj/repo.rs. -/
inductive ChangeType
  | Added
  | Modified
  | Deleted
deriving DecidableEq, Repr

/-- `FileStatus` from src/jj/repo.rs. -/
structure FileStatus where
  path : String
  status : ChangeType
deriving DecidableEq, Repr

/-- `BookmarkInfo` from src/jj/operations.rs. -/
structure BookmarkInfo where
  name : String
  is_current : Bool
deriving DecidableEq, Repr

/-- `CommitInfo` from src/jj/log.rs. -/
structure CommitInfo where
  change_id : String
  commit_id : String
  description : String
  author : String
deriving DecidableEq, Repr

/-- The subset of `crossterm::event::KeyCode` used by src/app.rs. -/
inductive KeyCode
  | Esc
  | Enter
  | Up
  | Down
  | Tab
  | BackTab
  | Backspace
  | Left
  | Right
  | Home
  | End
  | Char (c : Char)
deriving DecidableEq, BEq, Repr

/-- A key event: code plus the only modifier src/app.rs inspects (ALT). -/
structure KeyEvent where
  code : KeyCode
  alt : Bool
deriving DecidableEq, Repr

/-- `Tab` from src/app.rs. -/
inductive Tab
  | WorkingCopy
  | Bookmarks
  | Log
deriving DecidableEq, Repr

/-- `Tab::next` from src/app.rs. -/
def Tab.next : Tab → Tab
  | .WorkingCopy => .Bookmarks
  | .Bookmarks => .Log
  | .Log => .WorkingCopy

/-- `Tab::prev` from src/app.rs. -/
def Tab.prev : Tab → Tab
  | .WorkingCopy => .Log
  | .Bookmarks => .WorkingCopy
  | .Log => .Bookmarks

/-- `PopupCallback` from src/app.rs. -/
inductive PopupCallback
  | Describe
  | Commit
  | Rebase
deriving DecidableEq, Repr

/-- `PopupState` from src/app.rs.  The tui-textarea buffer of the `Input` arm
is modelled as its list of lines; the `BookmarkSelect` filter text is modelled
as a list of characters so that the byte-level cursor arithmetic of the Rust
code can be embedded faithfully. -/
inductive PopupState
  | None
  | Input (title : String) (textarea : List String) (callback : PopupCallback)
  | BookmarkSelect (content : List Char) (cursor_position : Nat)
      (available_bookmarks : List BookmarkInfo) (selected_index : Nat)
  | Error (message : String)
  | Warning (message : String)
  | Help
deriving DecidableEq, Repr

/-! ## UTF-8 string model for the BookmarkSelect buffer

A Rust `String` is a UTF-8 byte buffer; `content.insert(byte_pos, c)` and
`content.remove(byte_pos)` panic unless `byte_pos` is a char boundary inside
the buffer.  We model the buffer as its list of characters and byte positions
through `Char.utf8Size`; an out-of-bounds or mid-character byte index yields
`none` (the panic case). -/

/-- Total UTF-8 byte length of a character list (Rust `String::len`). -/
def utf8Len : List Char → Nat
  | [] => 0
  | c :: s => c.utf8Size + utf8Len s

/-- Byte offset of the `i`-th character (Rust `char_indices().nth(i)` offset);
for `i` past the end this is the total byte length, mirroring the
`map_or(s.len(), ..)` in the `char_to_byte` closure of src/app.rs. -/
def char_to_byte : List Char → Nat → Nat
  | [], _ => 0
  | _ :: _, 0 => 0
  | c :: s, p + 1 => c.utf8Size + char_to_byte s p

/-- Rust `String::insert(byte_pos, ch)`: `none` models the panic on a
non-boundary or out-of-range byte index. -/
def strInsert : List Char → Nat → Char → Option (List Char)
  | s, 0, c => some (c :: s)
  | [], _ + 1, _ => none
  | d :: s, b + 1, c =>
      if d.utf8Size ≤ b + 1 then
        (strInsert s (b + 1 - d.utf8Size) c).map (d :: ·)
      else
        none

/-- Rust `String::remove(byte_pos)`: `none` models the panic on a
non-boundary or out-of-range byte index. -/
def strRemove : List Char → Nat → Option (List Char)
  | [], _ => none
  | _ :: s, 0 => some s
  | d :: s, b + 1 =>
      if d.utf8Size ≤ b + 1 then
        (strRemove s (b + 1 - d.utf8Size)).map (d :: ·)
      else
        none

/-- Insertion at a character index (specification-level view of `strInsert`). -/
def insertAtChar : List Char → Nat → Char → List Char
  | s, 0, c => c :: s
  | [], _ + 1, c => [c]
  | d :: s, p + 1, c => d :: insertAtChar s p c

/-- Removal at a character index (specification-level view of `strRemove`). -/
def removeAtChar : List Char → Nat → List Char
  | [], _ => []
  | _ :: s, 0 => s
  | d :: s, p + 1 => d :: removeAtChar s p

theorem utf8Size_pos (c : Char) : 0 < c.utf8Size := by
  have := Char.utf8Size_pos c
  omega

theorem char_to_byte_ge_len (s : List Char) (p : Nat) (h : s.length ≤ p) :
    char_to_byte s p = utf8Len s := by
  induction s generalizing p with
  | nil => simp [char_to_byte, utf8Len]
  | cons c t ih =>
      cases p with
      | zero => simp at h
      | succ q =>
          simp only [List.length_cons, Nat.succ_le_succ_iff] at h
          simp [char_to_byte, utf8Len, ih q h]

/-- Inserting at the byte offset of a valid character index always succeeds and
is insertion at that character index. -/
theorem strInsert_char_to_byte (s : List Char) (p : Nat) (c : Char) (h : p ≤ s.length) :
    strInsert s (char_to_byte s p) c = some (insertAtChar s p c) := by
  induction s generalizing p with
  | nil =>
      have hp : p = 0 := Nat.le_zero.mp h
      subst hp
      simp [char_to_byte, strInsert, insertAtChar]
  | cons d t ih =>
      cases p with
      | zero => simp [char_to_byte, strInsert, insertAtChar]
      | succ q =>
          simp only [List.length_cons, Nat.succ_le_succ_iff] at h
          have hpos := utf8Size_pos d
          have harg : d.utf8Size + char_to_byte t q = (d.utf8Size + char_to_byte t q - 1) + 1 := by
            omega
          simp only [char_to_byte, insertAtChar]
          rw [harg, strInsert]
          have hle : d.utf8Size ≤ (d.utf8Size + char_to_byte t q - 1) + 1 := by omega
          rw [if_pos hle]
          have hsub : (d.utf8Size + char_to_byte t q - 1) + 1 - d.utf8Size = char_to_byte t q := by
            omega
          rw [hsub, ih q h]
          rfl

/-- Inserting at the total byte length (cursor past the end) appends. -/
theorem strInsert_at_end (s : List Char) (c : Char) :
    strInsert s (utf8Len s) c = some (insertAtChar s s.length c) :=
  char_to_byte_ge_len s s.length (Nat.le_refl _) ▸ strInsert_char_to_byte s s.length c (Nat.le_refl _)

/-- Removing at the byte offset of a character strictly inside the buffer
always succeeds and removes that character. -/
theorem strRemove_char_to_byte (s : List Char) (p : Nat) (h : p < s.length) :
    strRemove s (char_to_byte s p) = some (removeAtChar s p) := by
  induction s generalizing p with
  | nil => simp at h
  | cons d t ih =>
      cases p with
      | zero => simp [char_to_byte, strRemove, removeAtChar]
      | succ q =>
          simp only [List.length_cons, Nat.succ_lt_succ_iff] at h
          have hpos := utf8Size_pos d
          have harg : d.utf8Size + char_to_byte t q = (d.utf8Size + char_to_byte t q - 1) + 1 := by
            omega
          simp only [char_to_byte, removeAtChar]
          rw [harg, strRemove]
          have hle : d.utf8Size ≤ (d.utf8Size + char_to_byte t q - 1) + 1 := by omega
          rw [if_pos hle]
          have hsub : (d.utf8Size + char_to_byte t q - 1) + 1 - d.utf8Size = char_to_byte t q := by
            omega
          rw [hsub, ih q h]
          rfl

theorem insertAtChar_length (s : List Char) (p : Nat) (c : Char) :
    (insertAtChar s p c).length = s.length + 1 := by
  induction s generalizing p with
  | nil => cases p <;> simp [insertAtChar]
  | cons d t ih =>
      cases p with
      | zero => simp [insertAtChar]
      | succ q => simp [insertAtChar, ih q]

theorem removeAtChar_length (s : List Char) (p : Nat) (h : p < s.length) :
    (removeAtChar s p).length = s.length - 1 := by
  induction s generalizing p with
  | nil => simp at h
  | cons d t ih =>
      cases p with
      | zero => simp [removeAtChar]
      | succ q =>
          simp only [List.length_cons, Nat.succ_lt_succ_iff] at h
          simp only [removeAtChar, List.length_cons, ih q h]
          omega

/-! ## Case-insensitive substring filter (BookmarkSelect) -/

/-- Character-wise lowercasing, modelling Rust `str::to_lowercase`. -/
def toLowerL (s : List Char) : List Char := s.map Char.toLower

/-- `pat` is a prefix of `s`. -/
def prefixOf : List Char → List Char → Bool
  | [], _ => true
  | _ :: _, [] => false
  | a :: as, b :: bs => a == b && prefixOf as bs

/-- `s` contains `pat` as a contiguous substring (Rust `str::contains`). -/
def hasSub : List Char → List Char → Bool
  | [], pat => prefixOf pat []
  | s@(_ :: rest), pat => prefixOf pat s || hasSub rest pat

/-- The filtered candidate view of the BookmarkSelect popup (src/app.rs):
all candidates when the filter text is empty, otherwise the candidates whose
lowercased name contains the lowercased filter text. -/
def filteredBookmarks (av : List BookmarkInfo) (content : List Char) : List BookmarkInfo :=
  if content.isEmpty then av
  else av.filter (fun b => hasSub (toLowerL b.name.toList) (toLowerL content))

/-- Rust `str::trim`: strip leading and trailing whitespace.  (Core
`String.trim` is defined by well-founded recursion and is replaced by this
structurally recursive equivalent so that concrete inputs evaluate.) -/
def rustTrim (s : String) : String :=
  String.mk (((s.data.dropWhile Char.isWhitespace).reverse.dropWhile
    Char.isWhitespace).reverse)

/-! ## Application state (struct App, src/app.rs)

Instants are modelled as millisecond timestamps (`Nat`); the ratatui
`ListState` of each list is modelled as its selected index option. -/

/-- The fields of `App` (src/app.rs) that the interaction state machine reads
or writes.  `log_commits_count` embeds `settings.ui.log_commits_count`. -/
structure App where
  current_tab : Tab
  previous_tab : Tab
  log_commits_count : Nat
  should_quit : Bool
  popup_state : PopupState
  status_message : Option String
  status_message_timestamp : Option Nat
  loading_message : Option String
  loading_start : Option Nat
  selected_file_index : Nat
  selected_bookmark_index : Nat
  selected_log_index : Nat
  diff_scroll_offset : Nat
  files : List FileStatus
  current_diff : Option String
  needs_redraw : Bool
  file_list_selected : Option Nat
  bookmark_list_selected : Option Nat
  log_list_selected : Option Nat
  bookmarks : List BookmarkInfo
  log_commits : List CommitInfo
  last_key_event : Option (KeyCode × Nat)
deriving DecidableEq, Repr

/-- External collaborators of the state machine: the current time, the
subprocess read-only queries (src/jj/status.rs, operations.rs, log.rs), the
native mutation engine results, and the tui-textarea edit function.  Each
fallible call is an `Except` carrying the formatted error message. -/
structure Env where
  now : Nat
  working_copy_status : Except String (List FileStatus)
  bookmarks_list : Except String (List BookmarkInfo)
  log_list : Nat → Except String (List CommitInfo)
  file_diff : String → Except String String
  set_bookmark : String → Except String String
  describe_res : String → Except String String
  commit_res : String → Except String String
  rebase_res : String → Except String String
  fetch_res : Except String String
  push_res : Option String → Except String String
  current_bookmark : Except String (Option String)
  is_wc_empty : Except String Bool
  new_commit : Except String String
  track_res : String → Except String String
  restore_res : Except String String
  checkout : String → Except String String
  textarea_input : List String → KeyEvent → List String

/-- Externally observable mutation-engine dispatches performed while handling
one key event. -/
inductive Effect
  | describeCall (msg : String)
  | commitCall (msg : String)
  | rebaseCall (dest : String)
  | setBookmarkCall (name : String)
  | trackCall (name : String)
  | fetchCall
  | pushCall (bookmark : Option String)
  | newCommitCall
  | checkoutCall (name : String)
  | autoTrackCall (name : String)
  | restoreCall
deriving DecidableEq, Repr

/-- How one `handle_key_event` call ends: normally, with a propagated
`anyhow::Error` (the `?` operator), or with a Rust panic. -/
inductive Outcome
  | ok
  | err (e : String)
  | panicked
deriving DecidableEq, Repr

/-- `App::set_status_message` (src/app.rs). -/
def set_status_message (env : Env) (a : App) (message : String) : App :=
  { a with
    status_message := some message
    status_message_timestamp := some env.now
    needs_redraw := true }

/-- `App::show_error` (src/app.rs). -/
def show_error (a : App) (message : String) : App :=
  { a with popup_state := .Error message }

/-- `App::show_warning` (src/app.rs). -/
def show_warning (a : App) (message : String) : App :=
  { a with popup_state := .Warning message }

/-- `App::show_loading` (src/app.rs). -/
def show_loading (env : Env) (a : App) (message : String) : App :=
  { a with
    loading_message := some message
    loading_start := some env.now
    needs_redraw := true }

/-- `App::clear_loading` (src/app.rs). -/
def clear_loading (a : App) : App :=
  { a with loading_message := none, loading_start := none, needs_redraw := true }

/-- `App::update_diff` (src/app.rs): `some e` is the propagated error of
`get_file_diff(..)?`. -/
def update_diff (env : Env) (a : App) : App × Option String :=
  match a.files.get? a.selected_file_index with
  | some file =>
      match env.file_diff file.path with
      | .ok d => ({ a with current_diff := some d }, none)
      | .error e => (a, some e)
  | none => ({ a with current_diff := none }, none)

/-- `App::refresh_status` (src/app.rs): replace the file list, clamp the
selected index with `min (len - 1)` (saturating), reset the diff scroll,
recompute the diff.  The `some e` component is a propagated error. -/
def refresh_status (env : Env) (a : App) : App × Option String :=
  match env.working_copy_status with
  | .error e => (a, some e)
  | .ok fs =>
      let idx := min a.selected_file_index (fs.length - 1)
      let a := { a with
        files := fs
        selected_file_index := idx
        file_list_selected := some idx
        diff_scroll_offset := 0 }
      match update_diff env a with
      | (a, some e) => (a, some e)
      | (a, none) => ({ a with needs_redraw := true }, none)

/-- `App::refresh_bookmarks` (src/app.rs): only acts when the query succeeds
(`if let Ok(..)`). -/
def refresh_bookmarks (env : Env) (a : App) : App :=
  match env.bookmarks_list with
  | .ok bs =>
      let idx := min a.selected_bookmark_index (bs.length - 1)
      { a with
        bookmarks := bs
        selected_bookmark_index := idx
        bookmark_list_selected := some idx
        needs_redraw := true }
  | .error _ => a

/-- `App::refresh_log` (src/app.rs): only acts when the query succeeds. -/
def refresh_log (env : Env) (a : App) : App :=
  match env.log_list a.log_commits_count with
  | .ok cs =>
      let idx := min a.selected_log_index (cs.length - 1)
      { a with
        log_commits := cs
        selected_log_index := idx
        log_list_selected := some idx
        needs_redraw := true }
  | .error _ => a

/-- `App::refresh_all` (src/app.rs). -/
def refresh_all (env : Env) (a : App) : App × Option String :=
  match refresh_status env a with
  | (a, some e) => (a, some e)
  | (a, none) => (refresh_log env (refresh_bookmarks env a), none)

/-- `App::switch_to_tab` (src/app.rs). -/
def switch_to_tab (env : Env) (a : App) (new_tab : Tab) : App :=
  if a.current_tab ≠ new_tab then
    let a := { a with previous_tab := a.current_tab, current_tab := new_tab }
    match new_tab with
    | .Bookmarks => refresh_bookmarks env a
    | .Log => refresh_log env a
    | .WorkingCopy => a
  else a

/-- `App::should_process_navigation_key` (src/app.rs): 50 ms debounce on a
repeated identical navigation key. -/
def should_process_navigation_key (env : Env) (a : App) (key_code : KeyCode) : Bool × App :=
  match a.last_key_event with
  | some (last_key, last_time) =>
      if last_key == key_code && env.now - last_time < 50 then (false, a)
      else (true, { a with last_key_event := some (key_code, env.now) })
  | none => (true, { a with last_key_event := some (key_code, env.now) })

/-- Success branches of the engine dispatches end with `refresh_all()?`:
thread the possible propagated error into an `Outcome`. -/
def afterRefreshAll (env : Env) (a : App) (effs : List Effect) : App × List Effect × Outcome :=
  match refresh_all env a with
  | (a, some e) => (a, effs, .err e)
  | (a, none) => (a, effs, .ok)

/-- `App::show_describe_popup` (src/app.rs). -/
def show_describe_popup (a : App) : App :=
  { a with popup_state := .Input "Describe" [""] .Describe }

/-- `App::show_commit_popup` (src/app.rs). -/
def show_commit_popup (a : App) : App :=
  { a with popup_state := .Input "Commit" [""] .Commit }

/-- `App::show_rebase_popup` (src/app.rs). -/
def show_rebase_popup (a : App) : App :=
  { a with popup_state := .Input "Rebase destination" [""] .Rebase }

/-- `App::show_bookmark_popup` (src/app.rs): the candidate list is
`get_bookmarks().unwrap_or_else(Vec::new)`. -/
def show_bookmark_popup (env : Env) (a : App) : App :=
  let bs := match env.bookmarks_list with
    | .ok bs => bs
    | .error _ => []
  { a with popup_state := .BookmarkSelect [] 0 bs 0 }

/-- `App::execute_popup_callback` (src/app.rs). -/
def execute_popup_callback (env : Env) (a : App) (callback : PopupCallback) (text : String) :
    App × List Effect × Outcome :=
  match callback with
  | .Describe =>
      match env.describe_res text with
      | .ok _ =>
          afterRefreshAll env (set_status_message env a "Description updated") [.describeCall text]
      | .error e => (show_error a ("Failed to describe: " ++ e), [.describeCall text], .ok)
  | .Commit =>
      match env.commit_res text with
      | .ok _ =>
          afterRefreshAll env (set_status_message env a "Committed successfully") [.commitCall text]
      | .error e => (show_error a ("Failed to commit: " ++ e), [.commitCall text], .ok)
  | .Rebase =>
      let text := if (rustTrim text).isEmpty then "@" else rustTrim text
      match env.rebase_res text with
      | .ok _ =>
          afterRefreshAll env (set_status_message env a ("Rebased to " ++ text)) [.rebaseCall text]
      | .error e => (show_error a ("Failed to rebase: " ++ e), [.rebaseCall text], .ok)

/-- `App::track_current_bookmark` (src/app.rs). -/
def track_current_bookmark (env : Env) (a : App) : App × List Effect × Outcome :=
  match env.current_bookmark.toOption.join with
  | none => (show_warning a "No current bookmark to track.", [], .ok)
  | some bookmark =>
      match env.track_res bookmark with
      | .ok _ =>
          (set_status_message env a ("Tracking bookmark: " ++ bookmark), [.trackCall bookmark], .ok)
      | .error e =>
          (show_error a ("Failed to track bookmark: " ++ e), [.trackCall bookmark], .ok)

/-- `App::restore_working_copy` (src/app.rs). -/
def restore_working_copy (env : Env) (a : App) : App × List Effect × Outcome :=
  match env.restore_res with
  | .ok _ =>
      match refresh_all env a with
      | (a, some e) => (a, [.restoreCall], .err e)
      | (a, none) => (a, [.restoreCall], .ok)
  | .error e =>
      (show_error a ("Failed to restore working copy: " ++ e), [.restoreCall], .ok)

/-- `App::handle_new_commit` (src/app.rs). -/
def handle_new_commit (env : Env) (a : App) : App × List Effect × Outcome :=
  match env.is_wc_empty with
  | .ok true =>
      (show_warning a "Already on an empty commit. Add changes first.", [], .ok)
  | .ok false =>
      match env.new_commit with
      | .ok _ =>
          afterRefreshAll env (set_status_message env a "Created new commit") [.newCommitCall]
      | .error e =>
          (show_error a ("Failed to create new commit: " ++ e), [.newCommitCall], .ok)
  | .error e => (show_error a ("Failed to check working copy: " ++ e), [], .ok)

/-- `App::handle_fetch` (src/app.rs).  Note: the source sets only
`loading_start` at entry (not `loading_message`), and its error branch opens
the Error popup without calling `clear_loading`. -/
def handle_fetch (env : Env) (a : App) : App × List Effect × Outcome :=
  let a := { a with loading_start := some env.now }
  match env.fetch_res with
  | .ok _ =>
      let a := set_status_message env (clear_loading a) "Fetched from remote"
      afterRefreshAll env a [.fetchCall]
  | .error e => (show_error a ("Failed to fetch: " ++ e), [.fetchCall], .ok)

/-- `App::handle_push` (src/app.rs). -/
def handle_push (env : Env) (a : App) : App × List Effect × Outcome :=
  let a := show_loading env a "Pushing to remote"
  let bookmark := env.current_bookmark.toOption.join
  match env.push_res bookmark with
  | .ok _ =>
      let a := clear_loading a
      let msg := match bookmark with
        | none => "Pushed current change (created temporary bookmark)"
        | some b => "Pushed bookmark: " ++ b
      afterRefreshAll env (set_status_message env a msg) [.pushCall bookmark]
  | .error e =>
      (show_error (clear_loading a) ("Failed to push: " ++ e), [.pushCall bookmark], .ok)

/-- `App::handle_bookmark_checkout` (src/app.rs).  The post-checkout
`auto_track_bookmark(..).ok()` call is fire-and-forget; its result is
discarded (the function itself lives outside the embedded sources and is
recorded only as an effect). -/
def handle_bookmark_checkout (env : Env) (a : App) : App × List Effect × Outcome :=
  match a.bookmarks.get? a.selected_bookmark_index with
  | some bookmark =>
      match env.checkout bookmark.name with
      | .ok _ =>
          let a := set_status_message env a ("Checked out bookmark: " ++ bookmark.name)
          afterRefreshAll env a [.checkoutCall bookmark.name, .autoTrackCall bookmark.name]
      | .error e =>
          (show_error a ("Failed to checkout bookmark: " ++ e), [.checkoutCall bookmark.name], .ok)
  | none => (a, [], .ok)

/-- The `Char('j') | Down` navigation branch of `App::handle_key_event`. -/
def navDown (env : Env) (a : App) (key_code : KeyCode) : App × List Effect × Outcome :=
  match should_process_navigation_key env a key_code with
  | (false, a) => (a, [], .ok)
  | (true, a) =>
      match a.current_tab with
      | .WorkingCopy =>
          if a.files.isEmpty then (a, [], .ok)
          else
            let idx := min (a.selected_file_index + 1) (a.files.length - 1)
            let a := { a with selected_file_index := idx, file_list_selected := some idx }
            match update_diff env a with
            | (a, some e) => (a, [], .err e)
            | (a, none) => ({ a with diff_scroll_offset := 0 }, [], .ok)
      | .Bookmarks =>
          if a.bookmarks.isEmpty then (a, [], .ok)
          else
            let idx := min (a.selected_bookmark_index + 1) (a.bookmarks.length - 1)
            ({ a with selected_bookmark_index := idx, bookmark_list_selected := some idx },
             [], .ok)
      | .Log =>
          if a.log_commits.isEmpty then (a, [], .ok)
          else
            let idx := min (a.selected_log_index + 1) (a.log_commits.length - 1)
            ({ a with selected_log_index := idx, log_list_selected := some idx }, [], .ok)

/-- The `Char('k') | Up` navigation branch of `App::handle_key_event`. -/
def navUp (env : Env) (a : App) (key_code : KeyCode) : App × List Effect × Outcome :=
  match should_process_navigation_key env a key_code with
  | (false, a) => (a, [], .ok)
  | (true, a) =>
      match a.current_tab with
      | .WorkingCopy =>
          let idx := a.selected_file_index - 1
          let a := { a with selected_file_index := idx, file_list_selected := some idx }
          match update_diff env a with
          | (a, some e) => (a, [], .err e)
          | (a, none) => ({ a with diff_scroll_offset := 0 }, [], .ok)
      | .Bookmarks =>
          let idx := a.selected_bookmark_index - 1
          ({ a with selected_bookmark_index := idx, bookmark_list_selected := some idx },
           [], .ok)
      | .Log =>
          let idx := a.selected_log_index - 1
          ({ a with selected_log_index := idx, log_list_selected := some idx }, [], .ok)

/-- The browse-mode (no intercepting popup) arm of `App::handle_key_event`. -/
def handleBrowseKey (env : Env) (a : App) (key : KeyEvent) : App × List Effect × Outcome :=
  match key.code with
  | .Char '?' => ({ a with popup_state := .Help }, [], .ok)
  | .Char 'q' => ({ a with should_quit := true }, [], .ok)
  | .Char '1' => (switch_to_tab env a .WorkingCopy, [], .ok)
  | .Char '2' => (switch_to_tab env a .Bookmarks, [], .ok)
  | .Char '3' => (switch_to_tab env a .Log, [], .ok)
  | .Tab => (switch_to_tab env a a.current_tab.next, [], .ok)
  | .BackTab => (switch_to_tab env a a.current_tab.prev, [], .ok)
  | .Char 'j' | .Down => navDown env a key.code
  | .Char 'k' | .Up => navUp env a key.code
  | .Char 'J' =>
      if a.current_tab = .WorkingCopy ∧ a.current_diff.isSome then
        ({ a with diff_scroll_offset := a.diff_scroll_offset + 1 }, [], .ok)
      else (a, [], .ok)
  | .Char 'K' =>
      if a.current_tab = .WorkingCopy then
        ({ a with diff_scroll_offset := a.diff_scroll_offset - 1 }, [], .ok)
      else (a, [], .ok)
  | .Enter =>
      match a.current_tab with
      | .Bookmarks => handle_bookmark_checkout env a
      | .Log | .WorkingCopy => (a, [], .ok)
  | .Char 'd' =>
      if a.current_tab = .WorkingCopy then (show_describe_popup a, [], .ok) else (a, [], .ok)
  | .Char 'c' =>
      if a.current_tab = .WorkingCopy then (show_commit_popup a, [], .ok) else (a, [], .ok)
  | .Char 'n' =>
      if a.current_tab = .WorkingCopy then handle_new_commit env a else (a, [], .ok)
  | .Char 'f' => handle_fetch env a
  | .Char 'p' => handle_push env a
  | .Char 'r' => (show_rebase_popup a, [], .ok)
  | .Char 'b' => (show_bookmark_popup env a, [], .ok)
  | .Char 't' => track_current_bookmark env a
  | .Char 'R' =>
      match refresh_all env a with
      | (a, some e) => (a, [], .err e)
      | (a, none) => (set_status_message env a "Refreshed", [], .ok)
  | .Char 'X' =>
      match restore_working_copy env a with
      | (a, effs, .ok) => (set_status_message env a "Restored working copy", effs, .ok)
      | r => r
  | _ => (a, [], .ok)

/-- The `PopupState::Input` arm of `App::handle_key_event`: Esc discards,
plain Enter submits (clearing the popup before the callback runs), anything
else is forwarded to the textarea. -/
def handleInputPopup (env : Env) (a : App) (title : String) (textarea : List String)
    (callback : PopupCallback) (key : KeyEvent) : App × List Effect × Outcome :=
  match key.code with
  | .Esc => ({ a with popup_state := .None }, [], .ok)
  | .Enter =>
      if !key.alt then
        let text := String.intercalate "\n" textarea
        let a := { a with popup_state := .None }
        execute_popup_callback env a callback text
      else
        ({ a with popup_state := .Input title (env.textarea_input textarea key) callback },
         [], .ok)
  | _ =>
      ({ a with popup_state := .Input title (env.textarea_input textarea key) callback },
       [], .ok)

/-- The `PopupState::BookmarkSelect` arm of `App::handle_key_event`.  The
filtered view is computed before the key is examined, exactly as in the
source; `Outcome.panicked` marks the byte-index panics of
`String::insert`/`String::remove`. -/
def handleBookmarkSelectKey (env : Env) (a : App) (content : List Char)
    (cursor_position : Nat) (available_bookmarks : List BookmarkInfo)
    (selected_index : Nat) (key : KeyEvent) : App × List Effect × Outcome :=
  let filtered := filteredBookmarks available_bookmarks content
  match key.code with
  | .Esc => ({ a with popup_state := .None }, [], .ok)
  | .Enter =>
      let nameOpt : Option String :=
        match filtered.get? selected_index with
        | some b => some b.name
        | none => if content.isEmpty then none else some (String.mk content)
      match nameOpt with
      | none => ({ a with popup_state := .None }, [], .ok)
      | some bookmark_name =>
          let a := { a with popup_state := .None }
          match env.set_bookmark bookmark_name with
          | .ok _ =>
              afterRefreshAll env
                (set_status_message env a ("Set bookmark: " ++ bookmark_name))
                [.setBookmarkCall bookmark_name]
          | .error e =>
              (show_error a ("Failed to set bookmark: " ++ e),
               [.setBookmarkCall bookmark_name], .ok)
  | .Up | .Char 'k' =>
      if filtered.isEmpty then (a, [], .ok)
      else
        let ps := PopupState.BookmarkSelect content cursor_position available_bookmarks
          (selected_index - 1)
        ({ a with popup_state := ps }, [], .ok)
  | .Down | .Char 'j' =>
      if filtered.isEmpty then (a, [], .ok)
      else
        let ps := PopupState.BookmarkSelect content cursor_position available_bookmarks
          (min (selected_index + 1) (filtered.length - 1))
        ({ a with popup_state := ps }, [], .ok)
  | .Tab =>
      match filtered.get? selected_index with
      | some b =>
          let ps := PopupState.BookmarkSelect b.name.toList b.name.toList.length
            available_bookmarks selected_index
          ({ a with popup_state := ps }, [], .ok)
      | none => (a, [], .ok)
  | .Char c =>
      let byte_pos := char_to_byte content cursor_position
      match strInsert content byte_pos c with
      | none => (a, [], .panicked)
      | some content =>
          let ps := PopupState.BookmarkSelect content (cursor_position + 1)
            available_bookmarks 0
          ({ a with popup_state := ps }, [], .ok)
  | .Backspace =>
      if 0 < cursor_position then
        let cursor_position := cursor_position - 1
        let byte_pos := char_to_byte content cursor_position
        match strRemove content byte_pos with
        | none => (a, [], .panicked)
        | some content =>
            let ps := PopupState.BookmarkSelect content cursor_position
              available_bookmarks 0
            ({ a with popup_state := ps }, [], .ok)
      else (a, [], .ok)
  | .Left =>
      let ps := PopupState.BookmarkSelect content (cursor_position - 1)
        available_bookmarks selected_index
      ({ a with popup_state := ps }, [], .ok)
  | .Right =>
      let ps := PopupState.BookmarkSelect content (min (cursor_position + 1) content.length)
        available_bookmarks selected_index
      ({ a with popup_state := ps }, [], .ok)
  | .Home =>
      let ps := PopupState.BookmarkSelect content 0 available_bookmarks selected_index
      ({ a with popup_state := ps }, [], .ok)
  | .End =>
      let ps := PopupState.BookmarkSelect content content.length available_bookmarks
        selected_index
      ({ a with popup_state := ps }, [], .ok)
  | _ => (a, [], .ok)

/-- The `PopupState::Error` arm of `App::handle_key_event`. -/
def handleErrorPopup (a : App) (key : KeyEvent) : App × List Effect × Outcome :=
  match key.code with
  | .Enter | .Esc => ({ a with popup_state := .None }, [], .ok)
  | _ => (a, [], .ok)

/-- The `PopupState::Help` arm of `App::handle_key_event`. -/
def handleHelpPopup (a : App) (key : KeyEvent) : App × List Effect × Outcome :=
  match key.code with
  | .Char '?' | .Char 'q' | .Esc => ({ a with popup_state := .None }, [], .ok)
  | _ => (a, [], .ok)

/-- `App::handle_key_event` (src/app.rs).  The `if let` chain of the source
checks, in order, Input, BookmarkSelect, Error and Help popups; a `Warning`
popup matches none of them, so its key events fall through to the browse-mode
bindings exactly as they do in the source. -/
def handle_key_event (env : Env) (a : App) (key : KeyEvent) : App × List Effect × Outcome :=
  match a.popup_state with
  | .Input title textarea callback => handleInputPopup env a title textarea callback key
  | .BookmarkSelect content cursor_position available_bookmarks selected_index =>
      handleBookmarkSelectKey env a content cursor_position available_bookmarks
        selected_index key
  | .Error _ => handleErrorPopup a key
  | .Help => handleHelpPopup a key
  | .None => handleBrowseKey env a key
  | .Warning _ => handleBrowseKey env a key

/-! ## Repository model for the native mutation engine
(src/jj/native_operations.rs)

The jj-lib primitives used by `Native::describe` / `commit` / `track` are
external collaborators; they are modelled here as a small executable store,
following the Repository Handle primitives listed in the specification:
an append-only commit store (a commit id is its index), per-workspace
working-copy marker, remote-bookmark tracking state and local bookmark
targets (a multi-target local bookmark is conflicted).  `rebase_descendants`
re-parents every commit built on a rewritten commit and repoints references
(working-copy marker, local bookmarks) at the rewritten successors. -/

/-- A stored commit: parent ids, tree id (`0` is the empty tree) and
description. -/
structure JCommit where
  parents : List Nat
  tree : Nat
  description : String
deriving DecidableEq, Repr

/-- Modelled from the spec: a remote bookmark entry of the repository view
(query/set remote-bookmark tracking). -/
structure RemoteRef where
  bookmark : String
  remote : String
  tracked : Bool
  target : Nat
deriving DecidableEq, Repr

/-- The repository view: commit store, working-copy marker of the (single)
workspace, remote bookmarks and local bookmark targets. -/
structure RepoState where
  store : List JCommit
  wc : Option Nat
  remote_bookmarks : List RemoteRef
  local_bookmarks : List (String × List Nat)
deriving DecidableEq, Repr

/-- Transaction-level events recorded by one engine operation, in order. -/
inductive TxEvent
  | txStart
  | rewriteCommit (oldId newId : Nat)
  | newCommit (id : Nat)
  | setWc (id : Nat)
  | rebaseDescendants
  | trackBookmark (bookmark remote : String)
  | txCommit (description : String)
deriving DecidableEq, Repr

/-- Map a commit id through the pending rewritten-commit map. -/
def mapId (m : List (Nat × Nat)) (i : Nat) : Nat :=
  (m.lookup i).getD i

/-- One ascending pass over the store: every not-yet-rewritten commit with a
rewritten parent is re-created with its parents mapped through the rewrite
map (commit stores are topologically ordered, so one ascending pass reaches a
fixpoint). -/
def rebaseFrom (stop : Nat) : Nat → List JCommit → List (Nat × Nat) →
    List JCommit × List (Nat × Nat)
  | i, store, m =>
    if _h : i < stop then
      match store.get? i with
      | none => rebaseFrom stop (i + 1) store m
      | some c =>
          if (m.lookup i).isNone && c.parents.any (fun p => (m.lookup p).isSome) then
            rebaseFrom stop (i + 1)
              (store ++ [⟨c.parents.map (mapId m), c.tree, c.description⟩])
              ((i, store.length) :: m)
          else
            rebaseFrom stop (i + 1) store m
    else (store, m)
termination_by i _ _ => stop - i

/-- Modelled from the spec: jj-lib `rebase_descendants` — re-parent all
commits built transitively on a rewritten commit and repoint the working-copy
marker and local bookmarks at the rewritten successors. -/
def rebase_descendants (r : RepoState) (m : List (Nat × Nat)) : RepoState :=
  let sm := rebaseFrom r.store.length 0 r.store m
  { r with
    store := sm.1
    wc := r.wc.map (mapId sm.2)
    local_bookmarks := r.local_bookmarks.map (fun nt => (nt.1, nt.2.map (mapId sm.2))) }

/-- `Native::describe` (src/jj/native_operations.rs): validation before any
transaction, then rewrite the working-copy commit's description, rebase
descendants and commit the transaction.  The returned `RepoState` is the
persisted state: every error branch discards the transaction untouched. -/
def describe (r : RepoState) (message : String) :
    List TxEvent × RepoState × Except String String :=
  if (rustTrim message).isEmpty then
    ([], r, .error "Description message cannot be empty")
  else
    match r.wc with
    | none => ([.txStart], r, .error "No working copy commit found")
    | some wc_commit_id =>
        match r.store.get? wc_commit_id with
        | none => ([.txStart], r, .error "Object not found")
        | some wc_commit =>
            let newId := r.store.length
            let store1 := r.store ++ [⟨wc_commit.parents, wc_commit.tree, message⟩]
            let r1 := rebase_descendants { r with store := store1 } [(wc_commit_id, newId)]
            ([.txStart, .rewriteCommit wc_commit_id newId, .rebaseDescendants,
              .txCommit "describe working copy"],
             r1,
             .ok ("Working copy commit description updated to: " ++ message))

/-- `Native::commit` (src/jj/native_operations.rs): validation, finalize the
working-copy commit's description, create a new empty commit as child of the
finalized commit, repoint the working-copy marker, rebase descendants, commit
the transaction. -/
def commit (r : RepoState) (message : String) :
    List TxEvent × RepoState × Except String String :=
  if (rustTrim message).isEmpty then
    ([], r, .error "Commit message cannot be empty")
  else
    match r.wc with
    | none => ([.txStart], r, .error "No working copy commit found")
    | some wc_commit_id =>
        match r.store.get? wc_commit_id with
        | none => ([.txStart], r, .error "Object not found")
        | some wc_commit =>
            let committedId := r.store.length
            let store1 := r.store ++ [⟨wc_commit.parents, wc_commit.tree, message⟩]
            let newWcId := store1.length
            let store2 := store1 ++ [⟨[committedId], 0, ""⟩]
            let r2 := { r with store := store2, wc := some newWcId }
            let r3 := rebase_descendants r2 [(wc_commit_id, committedId)]
            ([.txStart, .rewriteCommit wc_commit_id committedId, .newCommit newWcId,
              .setWc newWcId, .rebaseDescendants, .txCommit "commit working copy"],
             r3,
             .ok ("Created commit " ++ toString committedId ++
                  " with description: " ++ message))

/-- Look up a remote bookmark entry by bookmark and remote name. -/
def findRef (bookmark remote : String) : List RemoteRef → Option RemoteRef
  | [] => none
  | x :: rest =>
      if x.bookmark == bookmark && x.remote == remote then some x
      else findRef bookmark remote rest

/-- Modelled from the spec: jj-lib view query `get_remote_bookmark`. -/
def getRemoteRef (r : RepoState) (bookmark remote : String) : Option RemoteRef :=
  findRef bookmark remote r.remote_bookmarks

/-- Modelled from the spec: `RemoteRef::is_tracked` — an absent remote
bookmark is untracked. -/
def isTracked (r : RepoState) (bookmark remote : String) : Bool :=
  match getRemoteRef r bookmark remote with
  | some x => x.tracked
  | none => false

/-- Merge a remote target into a local bookmark's target set (a second
distinct target makes the bookmark conflicted). -/
def mergeLocal : List (String × List Nat) → String → Nat → List (String × List Nat)
  | [], name, t => [(name, [t])]
  | (n, ts) :: rest, name, t =>
      if n == name then
        (n, if ts.contains t then ts else ts ++ [t]) :: rest
      else
        (n, ts) :: mergeLocal rest name t

/-- Modelled from the spec: jj-lib `track_remote_bookmark` — mark the remote
bookmark tracked and merge its target into the local bookmark. -/
def track_remote_bookmark (r : RepoState) (bookmark remote : String) :
    Except String RepoState :=
  match getRemoteRef r bookmark remote with
  | none => .error ("No such remote bookmark: " ++ bookmark ++ "@" ++ remote)
  | some x =>
      .ok { r with
        remote_bookmarks := r.remote_bookmarks.map (fun y =>
          if y.bookmark == bookmark && y.remote == remote then
            { y with tracked := true }
          else y)
        local_bookmarks := mergeLocal r.local_bookmarks bookmark x.target }

/-- Modelled from the spec: local bookmark conflict detection
(`get_local_bookmark(..).has_conflict()`). -/
def localHasConflict (r : RepoState) (bookmark : String) : Bool :=
  match r.local_bookmarks.find? (fun nt => nt.1 == bookmark) with
  | some nt => decide (1 < nt.2.length)
  | none => false

/-- `Native::track` (src/jj/native_operations.rs): a transaction is opened
first; an already-tracked bookmark short-circuits with a no-op confirmation
(the open transaction is dropped uncommitted); otherwise the bookmark is
marked tracked, a conflict warning is appended if needed and the transaction
commits. -/
def track (r : RepoState) (default_remote : String) (bookmark_name : String)
    (remote : Option String) : List TxEvent × RepoState × Except String String :=
  let rem := remote.getD default_remote
  if isTracked r bookmark_name rem then
    ([.txStart], r,
     .ok ("Remote bookmark already tracked: " ++ bookmark_name ++ "@" ++ rem))
  else
    match track_remote_bookmark r bookmark_name rem with
    | .error e => ([.txStart], r, .error e)
    | .ok r1 =>
        let has_conflict := localHasConflict r1 bookmark_name
        let base := "Started tracking 1 remote bookmarks."
        let msg :=
          if has_conflict then
            base ++ "\nWarning: Tracking created conflicts in local bookmark '" ++
              bookmark_name ++ "'.\nRun 'jj log' or 'jj st' to see the conflicted state."
          else base
        ([.txStart, .trackBookmark bookmark_name rem,
          .txCommit ("track remote bookmark " ++ bookmark_name ++ "@" ++ rem)],
         r1, .ok msg)

/-- `Except.isOk` specialised to the engine result type. -/
def isOkE {α : Type} : Except String α → Bool
  | .ok _ => true
  | .error _ => false

/-- The selected index of a BookmarkSelect popup, if one is active. -/
def popupSelectedIdx : PopupState → Option Nat
  | .BookmarkSelect _ _ _ si => some si
  | _ => none

/-! ## Concrete fixtures for witnesses and counterexamples -/

/-- A fresh `App` as built by `App::new` (src/app.rs), with empty caches. -/
def app0 : App where
  current_tab := .WorkingCopy
  previous_tab := .WorkingCopy
  log_commits_count := 50
  should_quit := false
  popup_state := .None
  status_message := none
  status_message_timestamp := none
  loading_message := none
  loading_start := none
  selected_file_index := 0
  selected_bookmark_index := 0
  selected_log_index := 0
  diff_scroll_offset := 0
  files := []
  current_diff := none
  needs_redraw := true
  file_list_selected := none
  bookmark_list_selected := none
  log_list_selected := none
  bookmarks := []
  log_commits := []
  last_key_event := none

/-- An environment where every external call succeeds with a neutral value. -/
def env0 : Env where
  now := 0
  working_copy_status := .ok []
  bookmarks_list := .ok []
  log_list := fun _ => .ok []
  file_diff := fun _ => .ok ""
  set_bookmark := fun _ => .ok ""
  describe_res := fun _ => .ok ""
  commit_res := fun _ => .ok ""
  rebase_res := fun _ => .ok ""
  fetch_res := .ok ""
  push_res := fun _ => .ok ""
  current_bookmark := .ok none
  is_wc_empty := .ok false
  new_commit := .ok ""
  track_res := fun _ => .ok ""
  restore_res := .ok ""
  checkout := fun _ => .ok ""
  textarea_input := fun ta _ => ta

/-- A two-commit repository: a root and a working-copy commit on top. -/
def repo0 : RepoState where
  store := [⟨[], 1, "root"⟩, ⟨[0], 2, "working"⟩]
  wc := some 1
  remote_bookmarks := []
  local_bookmarks := []

/-! ## Preservation helper lemmas -/

theorem update_diff_preserves_file_index (env : Env) (a : App) :
    (update_diff env a).1.selected_file_index = a.selected_file_index := by
  unfold update_diff
  cases hf : a.files.get? a.selected_file_index with
  | none => simp
  | some f => cases hd : env.file_diff f.path <;> simp [hd]

theorem update_diff_preserves_popup (env : Env) (a : App) :
    (update_diff env a).1.popup_state = a.popup_state := by
  unfold update_diff
  cases hf : a.files.get? a.selected_file_index with
  | none => simp
  | some f => cases hd : env.file_diff f.path <;> simp [hd]

theorem refresh_status_file_index (env : Env) (a : App) (fs : List FileStatus)
    (h : env.working_copy_status = .ok fs) :
    (refresh_status env a).1.selected_file_index
      = min a.selected_file_index (fs.length - 1) := by
  unfold refresh_status
  rw [h]
  dsimp only
  split
  · rename_i a2 e heq
    have hp := update_diff_preserves_file_index env
      { a with files := fs
               selected_file_index := min a.selected_file_index (fs.length - 1)
               file_list_selected := some (min a.selected_file_index (fs.length - 1))
               diff_scroll_offset := 0 }
    rw [heq] at hp
    exact hp
  · rename_i a2 heq
    have hp := update_diff_preserves_file_index env
      { a with files := fs
               selected_file_index := min a.selected_file_index (fs.length - 1)
               file_list_selected := some (min a.selected_file_index (fs.length - 1))
               diff_scroll_offset := 0 }
    rw [heq] at hp
    exact hp

theorem refresh_status_preserves_popup (env : Env) (a : App) :
    (refresh_status env a).1.popup_state = a.popup_state := by
  unfold refresh_status
  cases h : env.working_copy_status with
  | error e => rfl
  | ok fs =>
      dsimp only
      split
      · rename_i a2 e heq
        have hp := update_diff_preserves_popup env
          { a with files := fs
                   selected_file_index := min a.selected_file_index (fs.length - 1)
                   file_list_selected := some (min a.selected_file_index (fs.length - 1))
                   diff_scroll_offset := 0 }
        rw [heq] at hp
        exact hp
      · rename_i a2 heq
        have hp := update_diff_preserves_popup env
          { a with files := fs
                   selected_file_index := min a.selected_file_index (fs.length - 1)
                   file_list_selected := some (min a.selected_file_index (fs.length - 1))
                   diff_scroll_offset := 0 }
        rw [heq] at hp
        exact hp

theorem refresh_bookmarks_preserves_popup (env : Env) (a : App) :
    (refresh_bookmarks env a).popup_state = a.popup_state := by
  unfold refresh_bookmarks
  cases env.bookmarks_list <;> rfl

theorem refresh_log_preserves_popup (env : Env) (a : App) :
    (refresh_log env a).popup_state = a.popup_state := by
  unfold refresh_log
  cases env.log_list a.log_commits_count <;> rfl

theorem refresh_all_preserves_popup (env : Env) (a : App) :
    (refresh_all env a).1.popup_state = a.popup_state := by
  unfold refresh_all
  split
  · rename_i a2 e heq
    have hp := refresh_status_preserves_popup env a
    rw [heq] at hp
    exact hp
  · rename_i a2 heq
    have hp := refresh_status_preserves_popup env a
    rw [heq] at hp
    rw [refresh_log_preserves_popup, refresh_bookmarks_preserves_popup]
    exact hp

theorem afterRefreshAll_preserves_popup (env : Env) (a : App) (effs : List Effect) :
    (afterRefreshAll env a effs).1.popup_state = a.popup_state := by
  unfold afterRefreshAll
  split
  · rename_i a2 e heq
    have hp := refresh_all_preserves_popup env a
    rw [heq] at hp
    exact hp
  · rename_i a2 heq
    have hp := refresh_all_preserves_popup env a
    rw [heq] at hp
    exact hp

theorem afterRefreshAll_not_panicked (env : Env) (a : App) (effs : List Effect) :
    (afterRefreshAll env a effs).2.2 ≠ .panicked := by
  unfold afterRefreshAll
  split <;> simp

theorem refresh_bookmarks_index (env : Env) (a : App) (bs : List BookmarkInfo)
    (h : env.bookmarks_list = .ok bs) :
    (refresh_bookmarks env a).selected_bookmark_index
      = min a.selected_bookmark_index (bs.length - 1) := by
  unfold refresh_bookmarks
  rw [h]

theorem refresh_log_index (env : Env) (a : App) (cs : List CommitInfo)
    (h : env.log_list a.log_commits_count = .ok cs) :
    (refresh_log env a).selected_log_index
      = min a.selected_log_index (cs.length - 1) := by
  unfold refresh_log
  rw [h]

/-- A clamped index is `0` on the empty list and in range otherwise. -/
theorem min_pred_bounds (i n : Nat) :
    (n = 0 → min i (n - 1) = 0) ∧ (n ≠ 0 → min i (n - 1) < n) := by
  constructor
  · intro h; subst h; simp
  · intro h
    have h1 : n - 1 < n := Nat.sub_lt (Nat.pos_of_ne_zero h) Nat.one_pos
    exact Nat.lt_of_le_of_lt (Nat.min_le_right i (n - 1)) h1

/-! ## Claim theorems -/

/-- C2: for every message that is empty or whitespace-only, `describe`
returns an error outcome, records no transaction event at all (in particular
it never opens a transaction), and leaves the repository — hence the
working-copy commit's description and the set of commits — unchanged. -/
theorem describe_blank_is_rejected_before_any_transaction
    (r : RepoState) (message : String) (h : (rustTrim message).isEmpty = true) :
    describe r message = ([], r, .error "Description message cannot be empty") := by
  unfold describe
  rw [h]
  rfl

/-- Witness for C2 at the whitespace-only message `"   "`. -/
theorem describe_blank_is_rejected_before_any_transaction_witness :
    (rustTrim "   ").isEmpty = true ∧
      describe repo0 "   " = ([], repo0, .error "Description message cannot be empty") :=
  ⟨by decide, describe_blank_is_rejected_before_any_transaction repo0 "   " (by decide)⟩

/-- C7: for any active TextInput or BookmarkSelect popup, whatever the buffer
contents, cursor position, candidate list or highlight, pressing Esc closes
the popup to `None`, changes nothing else in the application state, performs
no mutation-engine dispatch (empty effect list) and invokes no callback. -/
theorem esc_discards_popup_without_any_dispatch (env : Env) (a : App)
    (title : String) (textarea : List String) (callback : PopupCallback)
    (content : List Char) (cursor_position : Nat) (av : List BookmarkInfo)
    (selected_index : Nat) (alt : Bool) :
    handle_key_event env { a with popup_state := .Input title textarea callback }
        ⟨.Esc, alt⟩
      = ({ a with popup_state := .None }, [], .ok) ∧
    handle_key_event env
        { a with popup_state := .BookmarkSelect content cursor_position av selected_index }
        ⟨.Esc, alt⟩
      = ({ a with popup_state := .None }, [], .ok) :=
  ⟨rfl, rfl⟩

/-- A state with an active Warning popup, as left behind by e.g.
`show_warning` after a no-op "new commit" request. -/
def appWarn : App :=
  { app0 with popup_state := .Warning "Already on an empty commit. Add changes first." }

/-- C1 (failing input): while a Warning popup is active, the key
`'q'` is not intercepted — it falls through to the browse-mode bindings and
quits the application, leaving the Warning popup still open.  The source
handles Input, BookmarkSelect, Error and Help popups before the normal
bindings but has no arm for Warning, so Warning does not intercept keys. -/
theorem warning_popup_does_not_intercept_keys :
    appWarn.should_quit = false ∧
    (handle_key_event env0 appWarn ⟨.Char 'q', false⟩).1.should_quit = true ∧
    (handle_key_event env0 appWarn ⟨.Char 'q', false⟩).1.popup_state
      = .Warning "Already on an empty commit. Add changes first." :=
  ⟨rfl, rfl, rfl⟩

/-- Three files as returned by a working-copy status query. -/
def threeFiles : List FileStatus :=
  [⟨"a.rs", .Modified⟩, ⟨"b.rs", .Added⟩, ⟨"c.rs", .Deleted⟩]

/-- Environment in which the working-copy status query returns three files. -/
def envThreeFiles : Env := { env0 with working_copy_status := .ok threeFiles }

/-- C5 (counterexample): a working-copy refresh with prior file index 1 and
three resulting files leaves the index at 1 — `refresh_status` clamps the
index, it does not reset it to 0. -/
theorem refresh_status_does_not_reset_index :
    (refresh_status envThreeFiles { app0 with selected_file_index := 1 }).1.selected_file_index
      ≠ 0 := by
  decide

theorem update_diff_preserves_diff_scroll (env : Env) (a : App) :
    (update_diff env a).1.diff_scroll_offset = a.diff_scroll_offset := by
  unfold update_diff
  cases hf : a.files.get? a.selected_file_index with
  | none => simp
  | some f => cases hd : env.file_diff f.path <;> simp [hd]

theorem refresh_status_diff_scroll (env : Env) (a : App) (fs : List FileStatus)
    (h : env.working_copy_status = .ok fs) :
    (refresh_status env a).1.diff_scroll_offset = 0 := by
  unfold refresh_status
  rw [h]
  dsimp only
  split
  · rename_i a2 e heq
    have hp := update_diff_preserves_diff_scroll env
      { a with files := fs
               selected_file_index := min a.selected_file_index (fs.length - 1)
               file_list_selected := some (min a.selected_file_index (fs.length - 1))
               diff_scroll_offset := 0 }
    rw [heq] at hp
    exact hp
  · rename_i a2 heq
    have hp := update_diff_preserves_diff_scroll env
      { a with files := fs
               selected_file_index := min a.selected_file_index (fs.length - 1)
               file_list_selected := some (min a.selected_file_index (fs.length - 1))
               diff_scroll_offset := 0 }
    rw [heq] at hp
    exact hp

/-- C5 (amended): after a working-copy refresh whose status query succeeds
with `fs`, the selected file index equals `min prior (fs.length - 1)` — it is
clamped into the new list (0 when the list is empty), not reset to 0; what is
reset to 0 by the refresh is the diff scroll offset. -/
theorem refresh_status_clamps_file_index (env : Env) (a : App) (fs : List FileStatus)
    (h : env.working_copy_status = .ok fs) :
    (refresh_status env a).1.selected_file_index
        = min a.selected_file_index (fs.length - 1) ∧
      (refresh_status env a).1.diff_scroll_offset = 0 :=
  ⟨refresh_status_file_index env a fs h, refresh_status_diff_scroll env a fs h⟩

/-- Witness for C5 (amended) with prior index 1 and three files. -/
theorem refresh_status_clamps_file_index_witness :
    (refresh_status envThreeFiles { app0 with selected_file_index := 1 }).1.selected_file_index
        = min 1 (3 - 1) ∧
      (refresh_status envThreeFiles
          { app0 with selected_file_index := 1 }).1.diff_scroll_offset = 0 :=
  refresh_status_clamps_file_index envThreeFiles { app0 with selected_file_index := 1 }
    threeFiles rfl

/-- C6: after any successful refresh of any of the three lists, that list's
selection index is `0` when the list is empty and lies in `[0, len-1]` when
it is non-empty, for every prior index value and every list length. -/
theorem refresh_selection_index_in_range (env : Env) (a : App)
    (fs : List FileStatus) (bs : List BookmarkInfo) (cs : List CommitInfo)
    (hf : env.working_copy_status = .ok fs)
    (hb : env.bookmarks_list = .ok bs)
    (hl : env.log_list a.log_commits_count = .ok cs) :
    ((fs = [] → (refresh_status env a).1.selected_file_index = 0) ∧
      (fs ≠ [] → (refresh_status env a).1.selected_file_index < fs.length)) ∧
    ((bs = [] → (refresh_bookmarks env a).selected_bookmark_index = 0) ∧
      (bs ≠ [] → (refresh_bookmarks env a).selected_bookmark_index < bs.length)) ∧
    ((cs = [] → (refresh_log env a).selected_log_index = 0) ∧
      (cs ≠ [] → (refresh_log env a).selected_log_index < cs.length)) := by
  refine ⟨⟨?_, ?_⟩, ⟨?_, ?_⟩, ⟨?_, ?_⟩⟩
  · intro he
    rw [refresh_status_file_index env a fs hf]
    exact (min_pred_bounds a.selected_file_index fs.length).1 (by simp [he])
  · intro he
    rw [refresh_status_file_index env a fs hf]
    exact (min_pred_bounds a.selected_file_index fs.length).2 (by simpa using he)
  · intro he
    rw [refresh_bookmarks_index env a bs hb]
    exact (min_pred_bounds a.selected_bookmark_index bs.length).1 (by simp [he])
  · intro he
    rw [refresh_bookmarks_index env a bs hb]
    exact (min_pred_bounds a.selected_bookmark_index bs.length).2 (by simpa using he)
  · intro he
    rw [refresh_log_index env a cs hl]
    exact (min_pred_bounds a.selected_log_index cs.length).1 (by simp [he])
  · intro he
    rw [refresh_log_index env a cs hl]
    exact (min_pred_bounds a.selected_log_index cs.length).2 (by simpa using he)

/-- A state whose three selection indices all sit at 9. -/
def appIdx9 : App :=
  { app0 with selected_file_index := 9, selected_bookmark_index := 9, selected_log_index := 9 }

/-- Environment whose queries return an empty file list, one bookmark, and an
empty log. -/
def envLists : Env :=
  { env0 with working_copy_status := .ok [], bookmarks_list := .ok [⟨"main", true⟩] }

/-- Witness for C6: a refresh from prior indices 9 over an empty file list
and a one-element bookmark list. -/
theorem refresh_selection_index_in_range_witness :
    (refresh_status envLists appIdx9).1.selected_file_index = 0 ∧
    (refresh_bookmarks envLists appIdx9).selected_bookmark_index < 1 := by
  constructor
  · exact (refresh_selection_index_in_range envLists appIdx9
      [] [⟨"main", true⟩] [] rfl rfl rfl).1.1 rfl
  · exact (refresh_selection_index_in_range envLists appIdx9
      [] [⟨"main", true⟩] [] rfl rfl rfl).2.1.2 (by decide)

/-- Environment in which the network fetch fails. -/
def envFetchErr : Env := { env0 with now := 7, fetch_res := .error "connection refused" }

/-- C9 (failing input): `handle_fetch` sets `loading_start` on entry, but its
error branch opens the Error popup without clearing the loading indicator, so
after a failed fetch the indicator is still set when the handler returns;
`handle_push` next to it does clear it on failure. -/
theorem fetch_failure_leaves_loading_indicator_set :
    app0.loading_start = none ∧
    (handle_fetch envFetchErr app0).1.loading_start = some 7 ∧
    (handle_fetch envFetchErr app0).1.popup_state
      = .Error "Failed to fetch: connection refused" ∧
    (handle_push { env0 with push_res := fun _ => .error "connection refused" }
        app0).1.loading_start = none :=
  ⟨rfl, rfl, rfl, rfl⟩

/-- Bookmark candidates `main` and `main-2`. -/
def avMain : List BookmarkInfo := [⟨"main", false⟩, ⟨"main-2", false⟩]

/-- A BookmarkSelect popup over `avMain` with empty filter text and
highlighted index 1 (reached by pressing Down once). -/
def appBS1 : App := { app0 with popup_state := .BookmarkSelect [] 0 avMain 1 }

/-- C8 (counterexample): Tab autocomplete replaces the filter text with the
highlighted candidate's name but does not reset the highlighted index.  With
candidates `[main, main-2]`, empty filter and highlight 1, Tab sets the
buffer to `"main-2"`; the filtered view for that buffer has length 1, yet the
highlight stays at 1 — neither reset to 0 nor inside `[0, filtered.len()-1]`. -/
theorem tab_autocomplete_keeps_stale_highlight :
    (handle_key_event env0 appBS1 ⟨.Tab, false⟩).1.popup_state
      = .BookmarkSelect "main-2".toList 6 avMain 1 ∧
    (filteredBookmarks avMain "main-2".toList).length = 1 := by
  constructor
  · decide
  · decide

/-- C8 (amended): in an active BookmarkSelect popup the highlighted index is
reset to 0 after every filter-text edit — character insertion (for characters
other than `j`/`k`, which are highlight-movement bindings and never reach the
edit arm) and backspace at a positive cursor; Tab autocomplete replaces the
buffer with the highlighted candidate's name and puts the cursor at its end
but leaves the highlighted index unchanged, so after Tab the index may lie
outside the new filtered view. -/
theorem filter_edit_resets_highlight (env : Env) (a : App) (content : List Char)
    (cursor_position : Nat) (av : List BookmarkInfo) (selected_index : Nat)
    (c : Char) (alt : Bool) (hj : c ≠ 'j') (hk : c ≠ 'k')
    (hinv : cursor_position ≤ content.length) :
    popupSelectedIdx (handle_key_event env
        { a with popup_state := .BookmarkSelect content cursor_position av selected_index }
        ⟨.Char c, alt⟩).1.popup_state = some 0 ∧
    (0 < cursor_position →
      popupSelectedIdx (handle_key_event env
          { a with popup_state := .BookmarkSelect content cursor_position av selected_index }
          ⟨.Backspace, alt⟩).1.popup_state = some 0) ∧
    (∀ b, (filteredBookmarks av content).get? selected_index = some b →
      (handle_key_event env
          { a with popup_state := .BookmarkSelect content cursor_position av selected_index }
          ⟨.Tab, alt⟩).1.popup_state
        = .BookmarkSelect b.name.toList b.name.toList.length av selected_index) := by
  refine ⟨?_, ?_, ?_⟩
  · show popupSelectedIdx (handleBookmarkSelectKey env _ content cursor_position av
      selected_index ⟨.Char c, alt⟩).1.popup_state = some 0
    unfold handleBookmarkSelectKey
    dsimp only
    split
    all_goals try (rename_i heq; cases heq)
    all_goals try (exact absurd rfl hk)
    all_goals try (exact absurd rfl hj)
    all_goals try (rw [strInsert_char_to_byte content cursor_position c hinv]; rfl)
    all_goals exact ((by assumption : ∀ c1 : Char, KeyCode.Char c = KeyCode.Char c1 → False) c rfl).elim
  · intro h0
    show popupSelectedIdx (handleBookmarkSelectKey env _ content cursor_position av
      selected_index ⟨.Backspace, alt⟩).1.popup_state = some 0
    unfold handleBookmarkSelectKey
    dsimp only
    rw [if_pos h0]
    rw [strRemove_char_to_byte content (cursor_position - 1) (by omega)]
    rfl
  · intro b hb
    show (handleBookmarkSelectKey env _ content cursor_position av
        selected_index ⟨.Tab, alt⟩).1.popup_state
      = .BookmarkSelect b.name.toList b.name.toList.length av selected_index
    unfold handleBookmarkSelectKey
    dsimp only
    rw [hb]

/-- Witness for C8 (amended): typing `x` at cursor 1 in buffer `"m"`,
backspacing there, and Tab over the `avMain` candidates. -/
theorem filter_edit_resets_highlight_witness :
    popupSelectedIdx (handle_key_event env0
        { app0 with popup_state := .BookmarkSelect ['m'] 1 avMain 1 }
        ⟨.Char 'x', false⟩).1.popup_state = some 0 ∧
    (0 < 1 →
      popupSelectedIdx (handle_key_event env0
          { app0 with popup_state := .BookmarkSelect ['m'] 1 avMain 1 }
          ⟨.Backspace, false⟩).1.popup_state = some 0) ∧
    (∀ b, (filteredBookmarks avMain ['m']).get? 1 = some b →
      (handle_key_event env0
          { app0 with popup_state := .BookmarkSelect ['m'] 1 avMain 1 }
          ⟨.Tab, false⟩).1.popup_state
        = .BookmarkSelect b.name.toList b.name.toList.length avMain 1) :=
  filter_edit_resets_highlight env0 app0 ['m'] 1 avMain 1 'x' false
    (by decide) (by decide) (by decide)

/-- No arm of the BookmarkSelect key handler reaches a byte-index panic when
the cursor invariant holds on entry. -/
theorem handleBookmarkSelect_no_panic (env : Env) (a : App) (content : List Char)
    (cursor_position : Nat) (av : List BookmarkInfo) (selected_index : Nat)
    (key : KeyEvent) (hinv : cursor_position ≤ content.length) :
    (handleBookmarkSelectKey env a content cursor_position av selected_index key).2.2
      ≠ .panicked := by
  obtain ⟨code, alt⟩ := key
  unfold handleBookmarkSelectKey
  cases code
  case Esc => simp
  case Enter =>
    dsimp only
    split
    · simp
    · rename_i name heq
      cases hsb : env.set_bookmark name with
      | error e => simp
      | ok s =>
          dsimp only
          exact afterRefreshAll_not_panicked env _ _
  case Up => dsimp only; split <;> simp
  case Down => dsimp only; split <;> simp
  case Tab =>
    dsimp only
    cases hg : (filteredBookmarks av content).get? selected_index <;> simp [hg]
  case BackTab => simp
  case Backspace =>
    dsimp only
    by_cases h0 : 0 < cursor_position
    · rw [if_pos h0, strRemove_char_to_byte content (cursor_position - 1) (by omega)]
      simp
    · rw [if_neg h0]
      simp
  case Left => simp
  case Right => simp
  case Home => simp
  case End => simp
  case Char c =>
    dsimp only
    split
    all_goals try (rename_i heq; cases heq)
    all_goals try (rw [strInsert_char_to_byte content cursor_position c hinv]; simp)
    all_goals try simp
    all_goals (split <;> simp)

/-- Every arm of the BookmarkSelect key handler preserves the cursor
invariant `cursor ≤ #chars` of whatever BookmarkSelect popup it leaves
behind. -/
theorem handleBookmarkSelect_cursor_bound (env : Env) (a : App) (content : List Char)
    (cursor_position : Nat) (av : List BookmarkInfo) (selected_index : Nat)
    (key : KeyEvent)
    (ha : a.popup_state = .BookmarkSelect content cursor_position av selected_index)
    (hinv : cursor_position ≤ content.length) :
    ∀ c' p' av' si',
      (handleBookmarkSelectKey env a content cursor_position av selected_index
          key).1.popup_state
        = .BookmarkSelect c' p' av' si' → p' ≤ c'.length := by
  intro c' p' av' si' h
  obtain ⟨code, alt⟩ := key
  unfold handleBookmarkSelectKey at h
  cases code
  case Esc => simp at h
  case Enter =>
    dsimp only at h
    split at h
    · simp at h
    · rename_i name heq
      cases hsb : env.set_bookmark name with
      | error e => rw [hsb] at h; simp [show_error] at h
      | ok s =>
          rw [hsb] at h
          dsimp only at h
          rw [afterRefreshAll_preserves_popup] at h
          simp [set_status_message] at h
  case Up =>
    dsimp only at h
    split at h
    · rw [ha] at h; cases h; exact hinv
    · cases h; exact hinv
  case Down =>
    dsimp only at h
    split at h
    · rw [ha] at h; cases h; exact hinv
    · cases h; exact hinv
  case Tab =>
    dsimp only at h
    cases hg : (filteredBookmarks av content).get? selected_index with
    | some b => rw [hg] at h; dsimp only at h; cases h; exact Nat.le_refl _
    | none => rw [hg] at h; dsimp only at h; rw [ha] at h; cases h; exact hinv
  case BackTab =>
    dsimp only at h
    rw [ha] at h
    cases h
    exact hinv
  case Backspace =>
    dsimp only at h
    by_cases h0 : 0 < cursor_position
    · rw [if_pos h0, strRemove_char_to_byte content (cursor_position - 1) (by omega)] at h
      dsimp only at h
      cases h
      rw [removeAtChar_length content (cursor_position - 1) (by omega)]
      omega
    · rw [if_neg h0, ha] at h
      cases h
      exact hinv
  case Left =>
    dsimp only at h
    cases h
    omega
  case Right =>
    dsimp only at h
    cases h
    exact Nat.min_le_right _ _
  case Home =>
    dsimp only at h
    cases h
    exact Nat.zero_le _
  case End =>
    dsimp only at h
    cases h
    exact Nat.le_refl _
  case Char c =>
    dsimp only at h
    split at h
    all_goals try (rename_i heq; cases heq)
    all_goals try (rw [strInsert_char_to_byte content cursor_position c hinv] at h;
                   dsimp only at h;
                   cases h;
                   rw [insertAtChar_length];
                   omega)
    all_goals try (split at h <;>
      first
        | (rw [ha] at h; cases h; exact hinv)
        | (cases h; exact hinv))
    all_goals (rw [ha] at h; cases h; exact hinv)

/-- C10: in an active BookmarkSelect popup satisfying the cursor invariant
`cursor ≤ #chars of the filter text`, every key event completes without a
byte-index panic (the character-to-byte conversion lands on a valid char
boundary, so `String::insert`/`String::remove` never index out of bounds),
and the invariant holds again for the BookmarkSelect popup left behind. -/
theorem bookmark_select_cursor_safety (env : Env) (a : App) (content : List Char)
    (cursor_position : Nat) (av : List BookmarkInfo) (selected_index : Nat)
    (key : KeyEvent) (hinv : cursor_position ≤ content.length) :
    (handle_key_event env
        { a with popup_state := .BookmarkSelect content cursor_position av selected_index }
        key).2.2 ≠ .panicked ∧
    ∀ c' p' av' si',
      (handle_key_event env
          { a with popup_state := .BookmarkSelect content cursor_position av selected_index }
          key).1.popup_state = .BookmarkSelect c' p' av' si' → p' ≤ c'.length :=
  ⟨handleBookmarkSelect_no_panic env
      { a with popup_state := .BookmarkSelect content cursor_position av selected_index }
      content cursor_position av selected_index key hinv,
   handleBookmarkSelect_cursor_bound env
      { a with popup_state := .BookmarkSelect content cursor_position av selected_index }
      content cursor_position av selected_index key rfl hinv⟩

/-- Witness for C10: a multi-byte buffer `"héllo"` with the cursor at its
end, receiving a Backspace. -/
theorem bookmark_select_cursor_safety_witness :
    (handle_key_event env0
        { app0 with popup_state := .BookmarkSelect "héllo".toList 5 avMain 0 }
        ⟨.Backspace, false⟩).2.2 ≠ .panicked ∧
    ∀ c' p' av' si',
      (handle_key_event env0
          { app0 with popup_state := .BookmarkSelect "héllo".toList 5 avMain 0 }
          ⟨.Backspace, false⟩).1.popup_state = .BookmarkSelect c' p' av' si' →
        p' ≤ c'.length :=
  bookmark_select_cursor_safety env0 app0 "héllo".toList 5 avMain 0
    ⟨.Backspace, false⟩ (by decide)

/-- A one-entry lookup table misses every other key. -/
theorem lookup_single_ne {j w v : Nat} (h : j ≠ w) : List.lookup j [(w, v)] = none := by
  have hb : (j == w) = false := by simpa using h
  simp [List.lookup, hb]

/-- `rebaseFrom` is the identity when no scanned commit is both unrewritten
and built on a rewritten parent. -/
theorem rebaseFrom_noop (stop : Nat) (k : Nat) :
    ∀ (i : Nat) (store : List JCommit) (m : List (Nat × Nat)),
      stop - i ≤ k →
      (∀ j c, i ≤ j → j < stop → store.get? j = some c →
        ((m.lookup j).isNone && c.parents.any (fun p => (m.lookup p).isSome)) = false) →
      rebaseFrom stop i store m = (store, m) := by
  induction k with
  | zero =>
      intro i store m hk h
      unfold rebaseFrom
      rw [dif_neg (by omega)]
  | succ k ih =>
      intro i store m hk h
      unfold rebaseFrom
      by_cases hi : i < stop
      · rw [dif_pos hi]
        cases hg : store.get? i with
        | none =>
            exact ih (i + 1) store m (by omega)
              (fun j c hj1 hj2 hgj => h j c (by omega) hj2 hgj)
        | some c =>
            have hc := h i c (Nat.le_refl i) hi hg
            dsimp only
            rw [hc]
            simp only [Bool.false_eq_true, if_false]
            exact ih (i + 1) store m (by omega)
              (fun j c hj1 hj2 hgj => h j c (by omega) hj2 hgj)
      · rw [dif_neg hi]

/-- C3: for every non-whitespace message, on a working copy whose commit
exists, has a non-empty tree and has no descendants in the store, `commit`
(1) records the transaction trace begin → rewrite → new-commit → repoint →
rebase-descendants → commit, with rebase-descendants strictly before the
transaction commit; (2) appends exactly two commits: the finalized
working-copy commit carrying the message and exactly one new commit whose
sole parent is the finalized commit and whose tree is empty; (3) repoints the
working-copy marker to that new commit; and (4) succeeds. -/
theorem commit_creates_one_new_child (r : RepoState) (message : String)
    (w : Nat) (wcC : JCommit)
    (hw : r.wc = some w) (hg : r.store.get? w = some wcC)
    (hmsg : (rustTrim message).isEmpty = false)
    (_hne : wcC.tree ≠ 0)
    (hnodesc : ∀ c ∈ r.store, w ∉ c.parents) :
    (commit r message).1
        = [.txStart, .rewriteCommit w r.store.length, .newCommit (r.store.length + 1),
           .setWc (r.store.length + 1), .rebaseDescendants, .txCommit "commit working copy"] ∧
    (commit r message).2.1.store
        = r.store ++ [⟨wcC.parents, wcC.tree, message⟩, ⟨[r.store.length], 0, ""⟩] ∧
    (commit r message).2.1.wc = some (r.store.length + 1) ∧
    (commit r message).2.2
        = .ok ("Created commit " ++ toString r.store.length ++
            " with description: " ++ message) := by
  have hwlt : w < r.store.length := by
    rcases List.get?_eq_some.mp hg with ⟨hlt, _⟩
    exact hlt
  have hwcm : wcC ∈ r.store := List.get?_mem hg
  set c1 : JCommit := ⟨wcC.parents, wcC.tree, message⟩ with hc1
  set c2 : JCommit := ⟨[r.store.length], 0, ""⟩ with hc2
  have hnd2 : ∀ c ∈ r.store ++ [c1, c2], ∀ p ∈ c.parents, p ≠ w := by
    intro c hc p hp
    rcases List.mem_append.mp hc with hin | hin
    · exact fun hpw => (hnodesc c hin) (hpw ▸ hp)
    · have hin' : c = c1 ∨ c = c2 := by simpa using hin
      rcases hin' with h1 | h1
      · subst h1
        exact fun hpw => (hnodesc wcC hwcm) (hpw ▸ hp)
      · subst h1
        have hp' : p = r.store.length := by simpa [hc2] using hp
        omega
  have hcond : ∀ j c, 0 ≤ j → j < r.store.length + 2 →
      (r.store ++ [c1, c2]).get? j = some c →
      ((List.lookup j [(w, r.store.length)]).isNone
        && c.parents.any (fun p => (List.lookup p [(w, r.store.length)]).isSome)) = false := by
    intro j c _ _ hgj
    by_cases hjw : j = w
    · subst hjw
      simp [List.lookup]
    · have hl : List.lookup j [(w, r.store.length)] = none := lookup_single_ne hjw
      rw [hl]
      simp only [Option.isNone_none, Bool.true_and]
      rw [List.any_eq_false]
      intro p hp
      have hpw := hnd2 c (List.get?_mem hgj) p hp
      simp [lookup_single_ne hpw]
  have hfix : rebaseFrom (r.store.length + 2) 0 (r.store ++ [c1, c2])
      [(w, r.store.length)] = (r.store ++ [c1, c2], [(w, r.store.length)]) :=
    rebaseFrom_noop (r.store.length + 2) (r.store.length + 2) 0 (r.store ++ [c1, c2])
      [(w, r.store.length)] (by omega) (fun j c h1 h2 h3 => hcond j c h1 h2 h3)
  have hwc1 : mapId [(w, r.store.length)] (r.store.length + 1) = r.store.length + 1 := by
    unfold mapId
    rw [lookup_single_ne (by omega)]
    rfl
  unfold commit
  rw [hmsg]
  simp only [Bool.false_eq_true, if_false]
  rw [hw]
  dsimp only
  rw [hg]
  dsimp only
  unfold rebase_descendants
  dsimp only
  have hassoc : (r.store ++ [c1]) ++ [c2] = r.store ++ [c1, c2] := by
    simp [List.append_assoc]
  have hlen1 : (r.store ++ [c1]).length = r.store.length + 1 := by
    simp
  have hlen2 : (r.store ++ [c1, c2]).length = r.store.length + 2 := by
    simp
  rw [hassoc, hlen1, hlen2, hfix]
  refine ⟨rfl, rfl, ?_, rfl⟩
  simp [hwc1]

/-- Witness for C3: committing message `"msg"` on the two-commit repository
`repo0` (root plus working copy, no descendants). -/
theorem commit_creates_one_new_child_witness :
    (commit repo0 "msg").1
        = [.txStart, .rewriteCommit 1 2, .newCommit 3, .setWc 3,
           .rebaseDescendants, .txCommit "commit working copy"] ∧
    (commit repo0 "msg").2.1.store
        = repo0.store ++ [⟨[0], 2, "msg"⟩, ⟨[2], 0, ""⟩] ∧
    (commit repo0 "msg").2.1.wc = some 3 ∧
    (commit repo0 "msg").2.2
        = .ok ("Created commit " ++ toString 2 ++ " with description: " ++ "msg") :=
  commit_creates_one_new_child repo0 "msg" 1 ⟨[0], 2, "working"⟩ rfl rfl
    (by decide) (by decide) (by decide)

/-- Marking a remote bookmark tracked preserves the lookup of its key, with
the tracked flag now set. -/
theorem findRef_map_tracked (l : List RemoteRef) (n rem : String) (x : RemoteRef)
    (h : findRef n rem l = some x) :
    findRef n rem (l.map (fun y =>
        if y.bookmark == n && y.remote == rem then { y with tracked := true } else y))
      = some { x with tracked := true } := by
  induction l with
  | nil => simp [findRef] at h
  | cons a t ih =>
      by_cases hp : (a.bookmark == n && a.remote == rem) = true
      · rw [findRef, if_pos hp] at h
        injection h with h1
        subst h1
        rw [List.map_cons, if_pos hp, findRef, if_pos hp]
      · rw [findRef, if_neg hp] at h
        rw [List.map_cons, if_neg hp, findRef, if_neg hp]
        exact ih h

/-- After a successful `track_remote_bookmark`, the remote bookmark reads as
tracked. -/
theorem isTracked_after_track (r : RepoState) (n rem : String) (r1 : RepoState)
    (h : track_remote_bookmark r n rem = .ok r1) : isTracked r1 n rem = true := by
  unfold track_remote_bookmark at h
  cases hfind : getRemoteRef r n rem with
  | none => rw [hfind] at h; cases h
  | some x =>
      rw [hfind] at h
      injection h with h1
      subst h1
      unfold isTracked getRemoteRef
      dsimp only
      unfold getRemoteRef at hfind
      rw [findRef_map_tracked r.remote_bookmarks n rem x hfind]

/-- C4 (counterexample): the second of two consecutive `track` calls does
open a transaction — `start_transaction` runs before the already-tracked
check, and the transaction is then dropped uncommitted. -/
theorem track_second_call_opens_transaction :
    TxEvent.txStart ∈
      (track (track { repo0 with
          remote_bookmarks := [⟨"main", "origin", false, 0⟩] } "origin" "main" none).2.1
        "origin" "main" none).1 := by
  decide

/-- C4 (amended): two consecutive `track` calls are idempotent — given that
the first call succeeds, the second detects the bookmark is already tracked
and returns the distinct "already tracked" outcome, performs no mutating step
(the repository state is unchanged) and never commits the transaction it
opens: its whole trace is the dropped `txStart`. -/
theorem track_second_call_is_noop (r : RepoState) (default_remote bookmark_name : String)
    (remote : Option String)
    (h : isOkE (track r default_remote bookmark_name remote).2.2 = true) :
    track (track r default_remote bookmark_name remote).2.1 default_remote
        bookmark_name remote
      = ([.txStart], (track r default_remote bookmark_name remote).2.1,
         .ok ("Remote bookmark already tracked: " ++ bookmark_name ++ "@"
            ++ remote.getD default_remote)) := by
  by_cases ht : isTracked r bookmark_name (remote.getD default_remote) = true
  · have hr1 : (track r default_remote bookmark_name remote).2.1 = r := by
      unfold track
      dsimp only
      rw [if_pos ht]
    rw [hr1]
    unfold track
    dsimp only
    rw [if_pos ht]
  · cases htr : track_remote_bookmark r bookmark_name (remote.getD default_remote) with
    | error e =>
        exfalso
        have hres : (track r default_remote bookmark_name remote).2.2 = .error e := by
          unfold track
          dsimp only
          rw [if_neg ht, htr]
        rw [hres] at h
        simp [isOkE] at h
    | ok rr =>
        have hr1 : (track r default_remote bookmark_name remote).2.1 = rr := by
          unfold track
          dsimp only
          rw [if_neg ht, htr]
        rw [hr1]
        unfold track
        dsimp only
        rw [if_pos (isTracked_after_track r bookmark_name (remote.getD default_remote) rr htr)]

/-- Witness for C4 (amended): tracking `dev@origin` twice from an untracked
state. -/
theorem track_second_call_is_noop_witness :
    isOkE (track { repo0 with remote_bookmarks := [⟨"dev", "origin", false, 3⟩] }
        "origin" "dev" none).2.2 = true ∧
    track (track { repo0 with remote_bookmarks := [⟨"dev", "origin", false, 3⟩] }
          "origin" "dev" none).2.1 "origin" "dev" none
      = ([.txStart],
         (track { repo0 with remote_bookmarks := [⟨"dev", "origin", false, 3⟩] }
            "origin" "dev" none).2.1,
         .ok ("Remote bookmark already tracked: " ++ "dev" ++ "@" ++ "origin")) :=
  ⟨by decide,
   track_second_call_is_noop
     { repo0 with remote_bookmarks := [⟨"dev", "origin", false, 3⟩] }
     "origin" "dev" none (by decide)⟩

end Jjkk
